import Mathlib

/-!
Shallow embedding of `mkbsc/state.py` (class `State`) and verification of the
frozen claims about it.

Modelling conventions:

* A Python `State` object's `knowledges` tuple is one of the three shapes the
  class docstring describes: a singleton holding an opaque label (base game),
  a singleton holding a `frozenset` of states, or a player-indexed tuple of
  `frozenset`s of states.  Python `set`/`frozenset` iteration order is
  deterministic within a run; we model each set as the `List` of its elements
  in that iteration order.
* Opaque labels are modelled as `String`s.  (Integer labels print the same
  way through `str`, so nothing is lost for the string-producing functions.)
* `State` defines no `__eq__`/`__hash__`, so Python falls back to
  identity-based equality and hashing.  Where identity matters we pair a
  structural value with the object's address (`PyStateObj`), and functions
  that could read `id(...)` receive the relevant addresses as arguments.
* Fallible code returns `Except PyErr`; `PyErr` enumerates the Python
  exceptions the modelled paths can raise.  `.fuelOut` is the surrogate for
  non-termination of an unbounded `while` loop, reached only when the fuel
  argument is insufficient.
-/

namespace Mkbsc

/-- The recursive knowledge value stored in `State.knowledges`.
`base l` models `knowledges == (l,)` with an opaque label `l`;
`fset xs` models `knowledges == (frozenset(xs),)`;
`nested kss` models `knowledges == (frozenset(k_0), ..., frozenset(k_{n-1}))`
with one entry per player (used with length ≥ 2; a length-1 tuple of one
frozenset is `fset`). -/
inductive State where
  | base : String → State
  | fset : List State → State
  | nested : List (List State) → State

/-- Boolean structural equality on the model's `State` values (this is the
model's notion of "structurally equal states"; Python `==` on `State` objects
is identity-based, see `pyEq`). -/
def beqS : State → State → Bool
  | .base a, .base b => a == b
  | .fset xs, .fset ys => beqL xs ys
  | .nested xs, .nested ys => beqLL xs ys
  | _, _ => false
where
  beqL : List State → List State → Bool
    | [], [] => true
    | a :: as, b :: bs => beqS a b && beqL as bs
    | _, _ => false
  beqLL : List (List State) → List (List State) → Bool
    | [], [] => true
    | a :: as, b :: bs => beqL a b && beqLL as bs
    | _, _ => false

mutual
/-- Helper: `beqS` is reflexive (support for the `DecidableEq` instance). -/
def beqS_refl : ∀ a : State, beqS a a = true
  | .base a => by simp [beqS]
  | .fset xs => by simpa [beqS] using beqL_refl xs
  | .nested xs => by simpa [beqS] using beqLL_refl xs
/-- Helper: `beqS.beqL` is reflexive. -/
def beqL_refl : ∀ xs : List State, beqS.beqL xs xs = true
  | [] => by simp [beqS.beqL]
  | a :: as => by simp [beqS.beqL, beqS_refl a, beqL_refl as]
/-- Helper: `beqS.beqLL` is reflexive. -/
def beqLL_refl : ∀ xs : List (List State), beqS.beqLL xs xs = true
  | [] => by simp [beqS.beqLL]
  | a :: as => by simp [beqS.beqLL, beqL_refl a, beqLL_refl as]
end

mutual
/-- Helper: `beqS` implies equality (support for the `DecidableEq` instance). -/
def beqS_eq : ∀ {a b : State}, beqS a b = true → a = b
  | .base a, .base b, h => by simpa [beqS] using h
  | .base _, .fset _, h => by simp [beqS] at h
  | .base _, .nested _, h => by simp [beqS] at h
  | .fset _, .base _, h => by simp [beqS] at h
  | .fset xs, .fset ys, h => by
      rw [beqL_eq (a := xs) (b := ys) (by simpa [beqS] using h)]
  | .fset _, .nested _, h => by simp [beqS] at h
  | .nested _, .base _, h => by simp [beqS] at h
  | .nested _, .fset _, h => by simp [beqS] at h
  | .nested xs, .nested ys, h => by
      rw [beqLL_eq (a := xs) (b := ys) (by simpa [beqS] using h)]
/-- Helper: `beqS.beqL` implies equality. -/
def beqL_eq : ∀ {a b : List State}, beqS.beqL a b = true → a = b
  | [], [], _ => rfl
  | [], _ :: _, h => by simp [beqS.beqL] at h
  | _ :: _, [], h => by simp [beqS.beqL] at h
  | a :: as, b :: bs, h => by
      have h' := h
      simp only [beqS.beqL, Bool.and_eq_true] at h'
      rw [beqS_eq h'.1, beqL_eq h'.2]
/-- Helper: `beqS.beqLL` implies equality. -/
def beqLL_eq : ∀ {a b : List (List State)}, beqS.beqLL a b = true → a = b
  | [], [], _ => rfl
  | [], _ :: _, h => by simp [beqS.beqLL] at h
  | _ :: _, [], h => by simp [beqS.beqLL] at h
  | a :: as, b :: bs, h => by
      have h' := h
      simp only [beqS.beqLL, Bool.and_eq_true] at h'
      rw [beqL_eq h'.1, beqLL_eq h'.2]
end

instance : DecidableEq State := fun a b =>
  if h : beqS a b = true then .isTrue (beqS_eq h)
  else .isFalse (fun he => h (he ▸ beqS_refl a))

/-- Python `len(self.knowledges)` for each shape of state. -/
def numKnowledges : State → Nat
  | .base _ => 1
  | .fset _ => 1
  | .nested kss => kss.length

/-- Python exceptions (and the fuel surrogate) that the modelled code paths
can produce. -/
inductive PyErr where
  | typeError
  | indexError
  | attributeError
  | assertionError
  | fuelOut
  | unmodeled
deriving DecidableEq, Repr

instance {ε α : Type} [DecidableEq ε] [DecidableEq α] : DecidableEq (Except ε α) :=
  fun x y =>
    match x, y with
    | .ok a, .ok b =>
      if h : a = b then .isTrue (by rw [h])
      else .isFalse (fun hc => h (by injection hc))
    | .error a, .error b =>
      if h : a = b then .isTrue (by rw [h])
      else .isFalse (fun hc => h (by injection hc))
    | .ok _, .error _ => .isFalse (fun hc => Except.noConfusion hc)
    | .error _, .ok _ => .isFalse (fun hc => Except.noConfusion hc)

/-- A Python `State` object: its memory address (`id(...)`) together with the
structural value of its `knowledges`.  The class defines no `__eq__` or
`__hash__`, so object equality and hashing use the address. -/
structure PyStateObj where
  addr : Nat
  val : State
deriving DecidableEq

/-- Python `==` on two `State` objects.  `State` defines no `__eq__`, so the
default identity comparison applies: the objects are equal iff they are the
same object (same address). -/
def pyEq (a b : PyStateObj) : Bool :=
  a.addr == b.addr

/-- Python `hash` on a `State` object.  `State` defines no `__hash__`, so the
default object hash applies, a function of the address alone (CPython derives
it from `id(self)`); we model it as the address itself. -/
def pyHash (a : PyStateObj) : Nat :=
  a.addr

/-- Result type of `State.__getitem__`: either a bare label (the sole entry of
a base state's singleton tuple) or a knowledge set. -/
inductive Knowl where
  | klabel : String → Knowl
  | kset : List State → Knowl
deriving DecidableEq

/-- Python `State.__getitem__(index)` (state.py lines 24-32): if `len(knowledges) == 1`
return `knowledges[0]` whatever the index is; otherwise return
`knowledges[index]`, raising `IndexError` when the index is out of range.
(`nested [k]` is the same Python object as `fset k` and behaves identically;
`nested []` models `knowledges == ()`, whose lookup always raises.) -/
def getitem (s : State) (index : Nat) : Except PyErr Knowl :=
  match s with
  | .base l => .ok (.klabel l)
  | .fset xs => .ok (.kset xs)
  | .nested [k] => .ok (.kset k)
  | .nested kss =>
    match kss.get? index with
    | some k => .ok (.kset k)
    | none => .error .indexError

/-- Default value of the class-level flag `State.orderable` (state.py line 343). -/
def orderableDefault : Bool := false

/-- Python `State.__gt__` (state.py lines 344-346): `assert State.orderable`, then
compare the two objects' addresses (`id(self) > id(other)`).  The knowledge
values themselves are never inspected. -/
def pyGt (orderable : Bool) (a b : PyStateObj) : Except PyErr Bool :=
  if orderable then .ok (decide (b.addr < a.addr)) else .error .assertionError

/-- Python `State.__lt__` (state.py lines 347-349): `assert State.orderable`, then
`id(self) < id(other)`. -/
def pyLt (orderable : Bool) (a b : PyStateObj) : Except PyErr Bool :=
  if orderable then .ok (decide (a.addr < b.addr)) else .error .assertionError

/-! ### `create_id` (state.py lines 210-226)

`create_id` builds `hash_string = node_label + str(player)` and then walks the
parent pointers up to the root, prepending `str(label) + str(player)` for each
ancestor, finally returning the sha1 hex digest of the string.  We model the
id as the preimage string itself: sha1 is a fixed deterministic function, so
two ids are equal whenever the preimage strings are equal (the direction every
theorem below uses); sha1's own collisions are not modelled.  The ancestor
chain is passed as the list of `(label, player)` pairs from the parent up to
the root, exactly the order the `while` loop visits them. -/

/-- The accumulator loop of `create_id`: starting from
`node_label ++ str(player)`, prepend `label ++ str(player)` for each ancestor
from the parent upward. -/
def idAccum : String → List (String × Nat) → String
  | acc, [] => acc
  | acc, (l, p) :: rest => idAccum (l ++ Nat.repr p ++ acc) rest

/-- Python `create_id(node, parent, player)`: the (preimage of the) sha1 node id, as
a function of the node's own label and player and of the ancestor chain
(parent first, root last).  `create_id` reads only graph attributes; it never
calls `id(...)`, so no address argument appears. -/
def create_id (label : String) (player : Nat) (chain : List (String × Nat)) : String :=
  idAccum (label ++ Nat.repr player) chain

/-- The contribution of one ancestor chain to the front of the id string:
the labels and players from the root down to the parent, concatenated. -/
def chainPrefix : List (String × Nat) → String
  | [] => ""
  | (l, p) :: rest => chainPrefix rest ++ (l ++ Nat.repr p)

/-! ### `consistent_base` (state.py lines 311-327)

Python collections are modelled as element lists in iteration order, tagged
with their runtime type (`states = [self]` starts as a list and becomes a set
after the first intersection).  `set` membership on `State` objects uses the
identity-based `__eq__`/`__hash__`; the model intersects by structural
equality instead, which agrees with the identity-based result whenever the
compared elements are structurally distinct (as in every input evaluated
below) and whose emptiness refines it (a structurally empty intersection is
empty for the identity comparison too). -/

/-- A Python collection of states: the constructor records whether the runtime
value is a `list` or a `set`. -/
inductive PyColl where
  | pylist : List State → PyColl
  | pyset : List State → PyColl
deriving DecidableEq

/-- The elements of a collection, in iteration order. -/
def collElems : PyColl → List State
  | .pylist l => l
  | .pyset l => l

/-- Python `set(state[player])` as used inside the intersection comprehension:
the player's knowledge set, via `__getitem__`.  A bare label (base state in
the frontier) would make Python iterate the label's characters (or raise
`TypeError` for an `int` label); that is outside the modelled value domain. -/
def projSet (st : State) (player : Nat) : Except PyErr (List State) :=
  match getitem st player with
  | .ok (.kset l) => .ok l
  | .ok (.klabel _) => .error .unmodeled
  | .error e => .error e

/-- Intersection of two element lists (structural equality, order of the first
operand kept). -/
def listInter (a b : List State) : List State :=
  a.filter (fun x => decide (x ∈ b))

/-- Python `set.intersection(*sets)`: left fold of pairwise intersection; calling it
with an empty argument list raises `TypeError`. -/
def interAll : List (List State) → Except PyErr (List State)
  | [] => .error .typeError
  | s :: rest => .ok (rest.foldl listInter s)

/-- The inner comprehension
`set.intersection(*[set(state[player]) for player in range(len(self.knowledges))])`
for one frontier state, with `arity = len(self.knowledges)` taken from the
receiver of `consistent_base`. -/
def innerInter (arity : Nat) (st : State) : Except PyErr (List State) := do
  let sets ← (List.range arity).mapM (fun p => projSet st p)
  interAll sets

/-- One pass of the intersection in the `while` body (state.py line 325). -/
def intersectStep (arity : Nat) (states : List State) : Except PyErr (List State) := do
  let sets ← states.mapM (innerInter arity)
  interAll sets

/-- The `while` loop of `consistent_base`.  `_pick` of an empty frontier falls
through its `for` loop and executes `raise None`, which Python reports as
`TypeError` (None is not an exception); a nonempty frontier is inspected via
its first element.  `fuel` bounds the number of iterations (the source loop is
unbounded); `.fuelOut` marks the surrogate for non-termination. -/
def cbLoop (arity : Nat) : Nat → PyColl → Except PyErr PyColl
  | fuel, coll =>
    match collElems coll with
    | [] => .error .typeError
    | st :: _ =>
      if numKnowledges st ≤ 1 then .ok coll
      else
        match fuel with
        | 0 => .error .fuelOut
        | f + 1 =>
          match intersectStep arity (collElems coll) with
          | .error e => .error e
          | .ok s' => cbLoop arity f (.pyset s')

/-- Python `knowledges[0] is a frozenset` for each model shape (evaluated only when
`len(knowledges) == 1`). -/
def k0Frozenset : State → Bool
  | .base _ => false
  | .fset _ => true
  | .nested kss => !kss.isEmpty

/-- Python `State.consistent_base()` (state.py lines 311-327).  For a state whose
`knowledges` is a singleton frozenset, `states = {self.knowledges[0]}` puts
the *frozenset itself* into a set, and the first `_pick(states).knowledges`
then raises `AttributeError` (a frozenset has no attribute `knowledges`).
Otherwise the frontier starts as the list `[self]` and the loop intersects
until its first element is at the base level. -/
def consistent_base (fuel : Nat) (s : State) : Except PyErr PyColl :=
  if numKnowledges s = 1 ∧ k0Frozenset s then .error .attributeError
  else cbLoop (numKnowledges s) fuel (.pylist [s])

/-! ### String rendering: `__repr__` (state.py lines 37-52) and
`epistemic_nice` (state.py lines 264-305)

Braces that are literal text are written `\x7b`/`\x7d` below.
`__repr__` first reads the class-level flag `State.compact_representation`;
when it is `True` the method returns `str(id(self))` — the object's memory
address — without looking at the knowledge value at all.  The model threads
the flag and an address environment `addrOf` explicitly.  `epistemic_nice`
itself reads neither the flag nor `id(...)`, but its `__wrap` helper renders a
singleton-frozenset state via `str(state.knowledges[0])`, whose frozenset repr
prints the *elements* through `__repr__`, which does consult the flag; hence
the flag and addresses are threaded there as well. -/

/-- Python `sep.join(parts)`. -/
def sepJoin (sep : String) : List String → String
  | [] => ""
  | [s] => s
  | s :: rest => s ++ sep ++ sepJoin sep rest

/-- Opening brace as literal text. -/
def lb : String := "\x7b"

/-- Closing brace as literal text. -/
def rb : String := "\x7d"

/-- Python `str` of a `set` whose elements have already been rendered. -/
def setFmt : List String → String
  | [] => "set()"
  | l => lb ++ sepJoin ", " l ++ rb

/-- Python `str` of a `frozenset` whose elements have already been rendered. -/
def frozensetFmt : List String → String
  | [] => "frozenset()"
  | l => "frozenset(" ++ lb ++ sepJoin ", " l ++ rb ++ ")"

/-- Python `str` of a tuple whose elements have already been rendered (a singleton
tuple prints with a trailing comma). -/
def tupleFmt : List String → String
  | [] => "()"
  | [s] => "(" ++ s ++ ",)"
  | l => "(" ++ sepJoin ", " l ++ ")"

/-- The non-compact branch of `__repr__` (state.py lines 46-52): a base label
prints as itself; a singleton frozenset prints as `str(set(...))`; a
player-indexed tuple prints as `str(tuple(set(k_i) for i))`.  This branch
reads no addresses and no flags. -/
def reprPure : State → String
  | .base l => l
  | .fset xs => setFmt (reprList xs)
  | .nested [k] => setFmt (reprList k)
  | .nested kss => tupleFmt (setsList kss)
where
  reprList : List State → List String
    | [] => []
    | s :: r => reprPure s :: reprList r
  setsList : List (List State) → List String
    | [] => []
    | k :: r => setFmt (reprList k) :: setsList r

/-- Python `State.__repr__` (state.py lines 38-52): if the class-level flag
`State.compact_representation` is set, return `str(id(self))` (the decimal
memory address); otherwise render the knowledge value structurally. -/
def pyRepr (compact : Bool) (addrOf : State → Nat) (s : State) : String :=
  if compact then Nat.repr (addrOf s) else reprPure s

/-- Python `str(state.knowledges[0])` as evaluated by `__wrap` for a state whose
`knowledges` is a singleton (or, junk-corner, empty: Python would raise
`IndexError`, the repo never builds such a state; we return `""`).  For a
frozenset entry this is the frozenset's repr, which renders each element via
`__repr__` — and therefore consults the compact flag and, when it is set, the
elements' addresses. -/
def strKnow0 (compact : Bool) (addrOf : State → Nat) : State → String
  | .base l => l
  | .fset xs => frozensetFmt (xs.map (pyRepr compact addrOf))
  | .nested [] => ""
  | .nested (k :: _) => frozensetFmt (k.map (pyRepr compact addrOf))

mutual
/-- Python `State.epistemic_nice(level)` (state.py lines 264-305), with the global
compact flag and address environment threaded explicitly (they are only read
through `__wrap`'s `str(state.knowledges[0])` on singleton-frozenset states).
The per-shape branches follow the source: a base label prints as itself at
every level; a singleton frozenset prints `{nice(e, level+1), ...}` at every
level; a player-indexed tuple prints `{...}` blocks joined by newlines at
level 0 and `__wrap`-ed elements joined by `""`/`"-"` at inner levels.
(`nested []`, i.e. `knowledges == ()`, would raise `IndexError` in Python;
the repo never builds it and the model returns junk there.) -/
def epistemicNice (compact : Bool) (addrOf : State → Nat) : State → Nat → String
  | .base l, _ => l
  | .fset xs, lvl => lb ++ sepJoin ", " (niceList compact addrOf xs (lvl + 1)) ++ rb
  | .nested [k], lvl => lb ++ sepJoin ", " (niceList compact addrOf k (lvl + 1)) ++ rb
  | .nested kss, 0 => sepJoin "\n" (outerBlocks compact addrOf kss)
  | .nested kss, lvl + 1 => sepJoin "-" (innerBlocks compact addrOf kss (lvl + 1))

/-- Python `[state.epistemic_nice(level) for state in knowledge]`. -/
def niceList (compact : Bool) (addrOf : State → Nat) : List State → Nat → List String
  | [], _ => []
  | s :: r, lvl => epistemicNice compact addrOf s lvl :: niceList compact addrOf r lvl

/-- The level-0 comprehension: one `{...}` block per player's knowledge set. -/
def outerBlocks (compact : Bool) (addrOf : State → Nat) : List (List State) → List String
  | [] => []
  | k :: r =>
    (lb ++ sepJoin ", " (niceList compact addrOf k 1) ++ rb)
      :: outerBlocks compact addrOf r

/-- The inner-level comprehension: one `"".join(__wrap(state, level))` string
per player's knowledge set. -/
def innerBlocks (compact : Bool) (addrOf : State → Nat) :
    List (List State) → Nat → List String
  | [], _ => []
  | k :: r, lvl =>
    sepJoin "" (wrapList compact addrOf k lvl) :: innerBlocks compact addrOf r lvl

/-- Python `[__wrap(state, level) for state in knowledge]`. -/
def wrapList (compact : Bool) (addrOf : State → Nat) : List State → Nat → List String
  | [], _ => []
  | s :: r, lvl => wrapS compact addrOf s lvl :: wrapList compact addrOf r lvl

/-- Python `__wrap(state, l)` (state.py lines 266-272): parenthesised recursive
rendering for player-indexed states, `str(state.knowledges[0])` otherwise. -/
def wrapS (compact : Bool) (addrOf : State → Nat) (s : State) (lvl : Nat) : String :=
  if 1 < numKnowledges s then "(" ++ epistemicNice compact addrOf s (lvl + 1) ++ ")"
  else strKnow0 compact addrOf s
end

/-- No sub-state (the state itself included) stores its knowledge as a
singleton frozenset: exactly the documented data-model shapes (base labels
and player-indexed tuples of sets of such states).  On such states
`epistemic_nice` never reaches the frozenset branch of `__wrap`'s
`str(state.knowledges[0])`, the only place that consults the compact flag and
addresses. -/
def noSingletonSet : State → Bool
  | .base _ => true
  | .fset _ => false
  | .nested kss => decide (kss.length ≠ 1) && nssLL kss
where
  nssL : List State → Bool
    | [] => true
    | s :: r => noSingletonSet s && nssL r
  nssLL : List (List State) → Bool
    | [] => true
    | k :: r => nssL k && nssLL r

/-! ### The epistemic tree: `parse_knowledge` (state.py lines 207-262) and the
recursion tests (state.py lines 73-172)

The networkx `DiGraph` is modelled as two association lists in insertion
order: node id → attributes, and node id → ordered successor list.
`G.add_node` on an existing id updates its attributes; `G.add_edge` appends
the target to the source's successor list if it is not already there (the
numeric edge label attribute is not consulted by any claim and is dropped).
Node ids are the sha1 *preimage* strings produced by `create_id`.  The
unbounded loops take explicit fuel; for the acyclic graphs `parse_knowledge`
builds, any fuel beyond the stated bounds reproduces the Python behaviour
exactly, and `.fuelOut`/truncation marks the surrogate for non-termination on
inputs where Python itself would not return. -/

/-- Attributes stored at a tree node: `label`, `player`, `parent`. -/
structure ENode where
  label : String
  player : Nat
  parent : Option String
deriving DecidableEq

/-- The e-tree graph: nodes and adjacency, both in insertion order. -/
structure EGraph where
  nodes : List (String × ENode)
  adj : List (String × List String)
deriving DecidableEq

/-- Python `nx.DiGraph()`. -/
def emptyGraph : EGraph := ⟨[], []⟩

/-- Python `G.nodes[i]` attribute lookup. -/
def getNode (G : EGraph) (i : String) : Option ENode :=
  (G.nodes.find? (fun p => p.1 == i)).map Prod.snd

/-- Python `G.add_node(i, ...)`: update the attributes when the id exists, append a
fresh node otherwise. -/
def addNode (G : EGraph) (i : String) (nd : ENode) : EGraph :=
  if G.nodes.any (fun p => p.1 == i) then
    { G with nodes := G.nodes.map (fun p => if p.1 == i then (i, nd) else p) }
  else { G with nodes := G.nodes ++ [(i, nd)] }

/-- Python `list(G.neighbors(i))`: the successors of `i`, in edge insertion order. -/
def succs (G : EGraph) (i : String) : List String :=
  match G.adj.find? (fun p => p.1 == i) with
  | some p => p.2
  | none => []

/-- Python `G.add_edge(u, v)`. -/
def addEdge (G : EGraph) (u v : String) : EGraph :=
  if v ∈ succs G u then G
  else if G.adj.any (fun p => p.1 == u) then
    { G with adj := G.adj.map (fun p => if p.1 == u then (u, p.2 ++ [v]) else p) }
  else { G with adj := G.adj ++ [(u, [v])] }

/-- The `while not parent == None` walk of `create_id`: collect
`(label, player)` from the parent pointers upward.  `fuel` bounds the walk;
`G.nodes.length` steps cover every parent chain the construction builds (a
missing id would be a Python `KeyError`; `parse_knowledge` only stores ids it
has added). -/
def chainOf (G : EGraph) : Nat → Option String → List (String × Nat)
  | _, none => []
  | 0, some _ => []
  | f + 1, some p =>
    match getNode G p with
    | none => []
    | some nd => (nd.label, nd.player) :: chainOf G f nd.parent

/-- Python `tuple(self.knowledges[player])` (state.py line 230): direct tuple
indexing, no `__getitem__` fallback.  A base state's entry is its label:
Python would iterate the label string's characters and then fail with
`AttributeError`; that path is outside the modelled value domain. -/
def knowledgeAt (s : State) (player : Nat) : Except PyErr (List State) :=
  match s with
  | .base _ => .error .unmodeled
  | .fset xs => if player = 0 then .ok xs else .error .indexError
  | .nested kss =>
    match kss.get? player with
    | some k => .ok k
    | none => .error .indexError

/-- Python `str(state.knowledges[0])` under the default
`State.compact_representation = False` (nothing in state.py ever sets the
flag), as used to build the base-case node label. -/
def strKnow0Pure : State → String :=
  strKnow0 false (fun _ => 0)

/-- One step of the inner `for p in range(len(state.knowledges))` loop of
`parse_knowledge` (state.py lines 250-259): skip the current player,
otherwise parse the child subtree (through `rec`, the recursive call) and add
the edge from the parent node. -/
def edgeStep (rec : State → Option String → Nat → EGraph → Except PyErr (String × EGraph))
    (parentNode : String) (player : Nat) (st : State) (Gb : EGraph) (p : Nat) :
    Except PyErr EGraph :=
  if p = player then .ok Gb
  else
    match rec st (some parentNode) p Gb with
    | .error e => .error e
    | .ok rc => .ok (addEdge rc.2 parentNode rc.1)

/-- One step of the outer `for state in indexed_knowledges` loop: run the
player loop for one state. -/
def childStep (rec : State → Option String → Nat → EGraph → Except PyErr (String × EGraph))
    (parentNode : String) (player : Nat) (Ga : EGraph) (st : State) :
    Except PyErr EGraph :=
  (List.range (numKnowledges st)).foldlM (edgeStep rec parentNode player st) Ga

/-- Python `State.parse_knowledge(parent, player, G)` (state.py lines 207-262),
generalised over the compact flag and address environment that its
`str(state.knowledges[0])` label rendering consults.  Returns the node id of
the subtree root together with the extended graph.  `fuel` bounds the
recursion depth (the source recursion is well-founded on the knowledge
nesting, so any fuel at least the nesting depth is exact). -/
def parseKnowledgeF (compact : Bool) (addrOf : State → Nat) :
    Nat → State → Option String → Nat → EGraph → Except PyErr (String × EGraph)
  | 0, _, _, _, _ => .error .fuelOut
  | f + 1, s, parent, player, G =>
    match knowledgeAt s player with
    | .error e => .error e
    | .ok [] => .error .indexError
    | .ok (k0 :: rest) =>
      if numKnowledges k0 = 1 then
        let lab := lb ++ sepJoin ", " ((k0 :: rest).map (strKnow0 compact addrOf)) ++ rb
        let i := create_id lab player (chainOf G (G.nodes.length + 1) parent)
        .ok (i, addNode G i ⟨lab, player, parent⟩)
      else
        match parseKnowledgeF compact addrOf f k0 parent player G with
        | .error e => .error e
        | .ok (parentNode, G1) =>
          match (k0 :: rest).foldlM
              (childStep (fun st pr p Gb => parseKnowledgeF compact addrOf f st pr p Gb)
                parentNode player) G1 with
          | .error e => .error e
          | .ok G2 => .ok (parentNode, G2)

/-- Python `parse_knowledge` as `epistemic_trees_recursive_at_depth` runs it:
under the default `State.compact_representation = False`. -/
def parse_knowledge (fuel : Nat) (s : State) (parent : Option String)
    (player : Nat) (G : EGraph) : Except PyErr (String × EGraph) :=
  parseKnowledgeF false (fun _ => 0) fuel s parent player G

/-- Python `root = list(G.edges)[0][0]` (state.py line 114): networkx iterates edges
grouped by source node in insertion order, so the first edge's source is the
first inserted node with a successor; `none` when the graph has no edges
(Python raises `IndexError`). -/
def firstEdgeSource (G : EGraph) : Option String :=
  (G.nodes.find? (fun p => !(succs G p.1).isEmpty)).map Prod.fst

/-- Python `State._epistemic_nodes_at_depth(G, depth)` (state.py lines 113-126):
start from the root and take successors `depth` times (a list – nodes reached
twice stay duplicated). -/
def nodesAtDepth (G : EGraph) (root : String) : Nat → List String
  | 0 => [root]
  | d + 1 => (nodesAtDepth G root d).flatMap (succs G)

/-- Python `State._get_epistemic_depth(G, node)` (state.py lines 128-136): scan
depths upward until the node appears (`some depth`) or a level is empty
(Python falls through and returns `None`).  `fuel` bounds the scan: for the
acyclic graphs `parse_knowledge` builds, every nonempty level's index is
below the node count, so `G.nodes.length + 1` steps are exact; on a cyclic
graph Python would loop forever. -/
def getDepthAux (G : EGraph) (root node : String) : Nat → Nat → Option Nat
  | 0, _ => none
  | f + 1, d =>
    let lvl := nodesAtDepth G root d
    if lvl.isEmpty then none
    else if node ∈ lvl then some d
    else getDepthAux G root node f (d + 1)

/-- Python `State._epistemic_subtree_equals(G, node1, node2)` (state.py lines
73-111): breadth-first comparison with two queues.  Per dequeued pair the
labels and players must agree; as soon as either dequeued node has **no**
successors the whole comparison returns `True` (even with other pairs still
queued); differing successor counts return `False`; otherwise both successor
lists are appended and the loop continues, also returning `True` when a queue
empties.  `fuel` bounds the loop (one unit per dequeued pair). -/
def subtreeEqualsAux (G : EGraph) : Nat → List String → List String → Bool
  | _, [], _ => true
  | _, _ :: _, [] => true
  | 0, _ :: _, _ :: _ => false
  | f + 1, c1 :: q1, c2 :: q2 =>
    match getNode G c1, getNode G c2 with
    | some n1, some n2 =>
      if n1.label = n2.label ∧ n1.player = n2.player then
        let ns1 := succs G c1
        let ns2 := succs G c2
        if ns1.isEmpty ∨ ns2.isEmpty then true
        else if ns1.length ≠ ns2.length then false
        else subtreeEqualsAux G f (q1 ++ ns1) (q2 ++ ns2)
      else false
    | _, _ => false

/-- Python `_epistemic_subtree_equals` started on a pair of nodes. -/
def subtreeEquals (G : EGraph) (fuel : Nat) (n1 n2 : String) : Bool :=
  subtreeEqualsAux G fuel [n1] [n2]

/-- Python `State._has_recursive_ancestor(G, node)` (state.py lines 138-150): find
the node's own depth, then scan every strictly shallower depth for a node
whose subtree the BFS comparison accepts.  When the depth scan returns `None`
the `depth < node_depth` comparison raises `TypeError`. -/
def hasRecursiveAncestor (G : EGraph) (root : String) (fuel : Nat)
    (node : String) : Except PyErr Bool :=
  match getDepthAux G root node fuel 0 with
  | none => .error .typeError
  | some nd =>
    .ok ((List.range nd).any (fun d =>
      (nodesAtDepth G root d).any (fun n => subtreeEquals G fuel node n)))

/-- The `for node in nodes_at_depth` accumulation of
`epistemic_trees_recursive_at_depth`: `res = res and curr_res` with an early
`return res` (after a debug print, dropped here) as soon as it goes `False`. -/
def checkNodes (G : EGraph) (root : String) (fuel : Nat) :
    List String → Except PyErr Bool
  | [] => .ok true
  | n :: rest =>
    match hasRecursiveAncestor G root fuel n with
    | .error e => .error e
    | .ok false => .ok false
    | .ok true => checkNodes G root fuel rest

/-- One player's body of `epistemic_trees_recursive_at_depth`: the root
lookup (an `IndexError` when the tree has no edges) followed by the node
scan at the requested depth. -/
def treeCheck (G : EGraph) (fuel d : Nat) : Except PyErr Bool :=
  match firstEdgeSource G with
  | none => .error .indexError
  | some root => checkNodes G root fuel (nodesAtDepth G root d)

/-- The `for state in self.knowledges` player loop (the loop variable is the
player counter; a fresh graph is parsed per player). -/
def playersCheck (fuel : Nat) (s : State) (d : Nat) : List Nat → Except PyErr Bool
  | [] => .ok true
  | p :: ps =>
    match parse_knowledge fuel s none p emptyGraph with
    | .error e => .error e
    | .ok (_, G) =>
      match treeCheck G fuel d with
      | .error e => .error e
      | .ok false => .ok false
      | .ok true => playersCheck fuel s d ps

/-- Python `State.epistemic_trees_recursive_at_depth(depth)` (state.py lines
152-172). -/
def epistemic_trees_recursive_at_depth (fuel : Nat) (s : State) (d : Nat) :
    Except PyErr Bool :=
  playersCheck fuel s d (List.range (numKnowledges s))

/-! ### The claim's notion of subtree identity (claim C3)

`claimSubtreeIdentical` follows the claim's words, not the source: two
subtrees are structurally identical when the roots carry the same label and
player, have the same number of children, and corresponding children are
recursively identical.  `fuel` larger than the tree height makes it exact. -/

/-- Structural subtree identity as the claim states it (refinement-side
definition, deliberately not taken from the source). -/
def claimSubtreeIdentical (G : EGraph) : Nat → String → String → Bool
  | 0, _, _ => false
  | f + 1, n1, n2 =>
    match getNode G n1, getNode G n2 with
    | some a, some b =>
      (a.label == b.label) && (a.player == b.player) &&
      (let ns1 := succs G n1
       let ns2 := succs G n2
       (ns1.length == ns2.length) &&
       (List.zip ns1 ns2).all (fun pr => claimSubtreeIdentical G f pr.1 pr.2))
    | _, _ => false

/-- The claim's right-hand side for one tree: every node at depth `d` has a
structurally identical subtree rooted at some node at a strictly shallower
depth. -/
def claimRecursiveAtDepth (G : EGraph) (root : String) (fuel d : Nat) : Bool :=
  (nodesAtDepth G root d).all (fun n =>
    (List.range d).any (fun dless =>
      (nodesAtDepth G root dless).any (fun m =>
        claimSubtreeIdentical G fuel n m)))

/-! ### Concrete states used by the counterexamples -/

/-- The base state `State("a")`. -/
def aState : State := .base "a"

/-- A level-2 state: both players consider only `a` possible. -/
def tState : State := .nested [[aState], [aState]]

/-- A level-3 state over `tState`. -/
def uState : State := .nested [[tState], [tState]]

/-- A level-4 state over `uState`: its player trees are three-node chains
whose leaf repeats the root's label and player. -/
def c3cex : State := .nested [[uState], [uState]]

/-- The player-0 epistemic tree `parse_knowledge` builds for `c3cex`. -/
def c3graph : EGraph :=
  match parse_knowledge 30 c3cex none 0 emptyGraph with
  | .ok (_, G) => G
  | .error _ => emptyGraph

/-! ## Theorems -/

theorem idAccum_eq (chain : List (String × Nat)) (acc : String) :
    idAccum acc chain = chainPrefix chain ++ acc := by
  induction chain generalizing acc with
  | nil => simp [idAccum, chainPrefix, String.empty_append]
  | cons hd tl ih =>
    cases hd with
    | mk l p =>
      rw [idAccum, ih, chainPrefix]
      simp [String.append_assoc]

theorem create_id_closed (label : String) (player : Nat)
    (chain : List (String × Nat)) :
    create_id label player chain = chainPrefix chain ++ label ++ Nat.repr player := by
  simp [create_id, idAccum_eq, String.append_assoc]

/-- Claim C1 (counterexample): two `State` objects at distinct addresses built
from the same knowledges — two base states with equal labels — are *not*
equal under Python's comparison, and their hashes differ, contradicting the
claimed structural equality/hashing. -/
theorem mkbsc_c1_counterexample :
    pyEq ⟨0, State.base "x"⟩ ⟨1, State.base "x"⟩ = false ∧
    (PyStateObj.mk 0 (State.base "x")).val = (PyStateObj.mk 1 (State.base "x")).val ∧
    pyHash ⟨0, State.base "x"⟩ ≠ pyHash ⟨1, State.base "x"⟩ := by
  refine ⟨rfl, rfl, ?_⟩
  decide

/-- Claim C1 (amended): `State` defines no `__eq__`/`__hash__`, so equality
and hashing of knowledge states are Python's identity-based defaults: two
objects compare equal exactly when they are the same object (same address),
and the hash is a function of the address alone, ignoring the knowledges. -/
theorem mkbsc_c1_amended :
    ∀ a b : PyStateObj, (pyEq a b = true ↔ a.addr = b.addr) ∧ pyHash a = a.addr := by
  intro a b
  exact ⟨by simp [pyEq], rfl⟩

/-- Claim C2 (counterexample): the id encoding is not injective in the
label/ancestor-chain data: a root node labelled `{a}1{b}` (players 0) and a
node labelled `{b}` under a root labelled `{a}` for player 1 produce the same
id preimage string — so they fold into one graph node although neither their
labels nor their ancestor chains match, refuting "when and only when". -/
theorem mkbsc_c2_counterexample :
    create_id "\x7ba\x7d1\x7bb\x7d" 0 [] = create_id "\x7bb\x7d" 0 [("\x7ba\x7d", 1)] ∧
    ("\x7ba\x7d1\x7bb\x7d", ([] : List (String × Nat))) ≠ ("\x7bb\x7d", [("\x7ba\x7d", 1)]) := by
  refine ⟨rfl, ?_⟩
  decide

/-- Claim C2 (amended): the canonical id is the sha1 of the concatenation of
each root-to-parent ancestor's label and player followed by the node's own
label and player; two nodes receive the same id (and hence fold into one
graph node) exactly when these concatenated strings coincide — equal
label/player/ancestor chains always fold, but the encoding is not injective,
so distinct chains whose concatenations collide fold as well. -/
theorem mkbsc_c2_amended :
    ∀ (l : String) (p : Nat) (c : List (String × Nat)) l' p' c',
      create_id l p c = create_id l' p' c' ↔
        chainPrefix c ++ l ++ Nat.repr p = chainPrefix c' ++ l' ++ Nat.repr p' := by
  intro l p c l' p' c'
  rw [create_id_closed, create_id_closed]

/-- Claim C4 (code evaluation at the failing input): for a knowledge state
whose two players' possibility sets are disjoint, the per-player intersection
empties the frontier and `consistent_base` raises `TypeError` (the `_pick`
helper executes `raise None` on the empty set, and `None` is not an
exception) — not an `InconsistentKnowledge` error, which does not exist in
the code. -/
theorem mkbsc_c4_failing_eval :
    consistent_base 3 (State.nested [[State.base "p"], [State.base "q"]]) =
      .error .typeError := by
  decide

/-- Claim C5 (counterexample): on a base state `consistent_base` returns the
*list* `[self]`, not a set — the frontier is initialised as a list and the
loop body never runs — so the claimed equality with the singleton set fails
on the runtime type. -/
theorem mkbsc_c5_counterexample :
    consistent_base 3 (State.base "x") ≠ .ok (.pyset [State.base "x"]) := by
  decide

/-- Claim C5 (amended): for every base-level label `x` and any loop budget,
`consistent_base` on `make_base(x)` returns the one-element *list* containing
that base state itself (so its elements are exactly `{make_base(x)}`, though
the value is a list, not a set). -/
theorem mkbsc_c5_amended :
    ∀ (x : String) (fuel : Nat),
      consistent_base fuel (State.base x) = .ok (.pylist [State.base x]) := by
  intro x fuel
  rw [consistent_base, if_neg (by simp [numKnowledges, k0Frozenset])]
  cases fuel with
  | zero => rfl
  | succ f => rfl

/-- Claim C6 (counterexample): projecting a base state does not return the
state wrapped as a singleton: `State("x")[1]` evaluates to the bare label
`"x"`, not to a singleton collection containing the state. -/
theorem mkbsc_c6_counterexample :
    getitem (State.base "x") 1 = .ok (.klabel "x") ∧
    Knowl.klabel "x" ≠ Knowl.kset [State.base "x"] := by
  refine ⟨rfl, ?_⟩
  decide

/-- Claim C6 (amended): projection returns the player's knowledge set for
player-indexed states (`knowledges[index]`, `IndexError` out of range), and
for every state whose `knowledges` is a singleton — base or singleton
frozenset — it returns the sole entry itself, unwrapped (the bare label, or
the frozenset), whatever the index. -/
theorem mkbsc_c6_amended :
    (∀ (l : String) (i : Nat), getitem (State.base l) i = .ok (.klabel l)) ∧
    (∀ (xs : List State) (i : Nat), getitem (State.fset xs) i = .ok (.kset xs)) ∧
    (∀ (k : List State) (i : Nat), getitem (State.nested [k]) i = .ok (.kset k)) ∧
    (∀ (kss : List (List State)) (i : Nat) (k : List State), kss.length ≠ 1 →
      kss[i]? = some k → getitem (State.nested kss) i = .ok (.kset k)) := by
  refine ⟨fun l i => rfl, fun xs i => rfl, fun k i => rfl, ?_⟩
  intro kss i k h1 h2
  match kss, h1, h2 with
  | [], _, h2 => simp at h2
  | [k'], h1, _ => simp at h1
  | a :: b :: rest, _, h2 => simp [getitem, List.get?_eq_getElem?, h2]

/-- Claim C6 (witness for the amended theorem's hypotheses). -/
theorem mkbsc_c6_amended_witness :
    getitem (State.nested [[State.base "a"], [State.base "b"]]) 1 =
      .ok (.kset [State.base "b"]) :=
  mkbsc_c6_amended.2.2.2 [[State.base "a"], [State.base "b"]] 1 [State.base "b"]
    (by decide) (by decide)

theorem pyRepr_false (a : State → Nat) : pyRepr false a = reprPure := by
  funext s
  rfl

theorem strKnow0_false (a1 a2 : State → Nat) :
    strKnow0 false a1 = strKnow0 false a2 := by
  funext s
  cases s with
  | base l => rfl
  | fset xs => simp [strKnow0, pyRepr_false]
  | nested kss =>
    cases kss with
    | nil => rfl
    | cons k r => simp [strKnow0, pyRepr_false]

theorem exceptFoldl_congr {α β ε : Type} (f g : β → α → Except ε β)
    (h : ∀ b a, f b a = g b a) :
    ∀ (l : List α) (b : β), l.foldlM f b = l.foldlM g b := by
  intro l
  induction l with
  | nil => intro b; rfl
  | cons a r ihl =>
    intro b
    simp only [List.foldlM_cons, h]
    cases g b a with
    | error e => rfl
    | ok b' => exact ihl b'

theorem edgeStep_congr
    (r1 r2 : State → Option String → Nat → EGraph → Except PyErr (String × EGraph))
    (h : ∀ st pr p G, r1 st pr p G = r2 st pr p G)
    (parentNode : String) (player : Nat) (st : State) (Gb : EGraph) (p : Nat) :
    edgeStep r1 parentNode player st Gb p = edgeStep r2 parentNode player st Gb p := by
  simp only [edgeStep, h]

theorem childStep_congr
    (r1 r2 : State → Option String → Nat → EGraph → Except PyErr (String × EGraph))
    (h : ∀ st pr p G, r1 st pr p G = r2 st pr p G)
    (parentNode : String) (player : Nat) :
    ∀ (Ga : EGraph) (st : State),
      childStep r1 parentNode player Ga st = childStep r2 parentNode player Ga st := by
  intro Ga st
  simp only [childStep]
  exact exceptFoldl_congr _ _
    (fun b a => edgeStep_congr r1 r2 h parentNode player st b a) _ _

/-- Claim C7: the canonical node ids are stable across runs.  Under the
default formatting flag, the whole tree construction — including every
`create_id` result — is independent of the address environment: `create_id`
reads only labels and players from the graph attributes (never `id(...)`),
so two runs on structurally equal inputs build identical graphs with
identical node ids. -/
theorem mkbsc_c7 :
    ∀ (a1 a2 : State → Nat) (fuel : Nat) (s : State) (parent : Option String)
      (player : Nat) (G : EGraph),
      parseKnowledgeF false a1 fuel s parent player G =
      parseKnowledgeF false a2 fuel s parent player G := by
  intro a1 a2 fuel
  induction fuel with
  | zero => intro s parent player G; simp only [parseKnowledgeF]
  | succ f ih =>
    intro s parent player G
    simp only [parseKnowledgeF]
    cases knowledgeAt s player with
    | error e => rfl
    | ok l =>
      cases l with
      | nil => rfl
      | cons k0 rest =>
        by_cases hk : numKnowledges k0 = 1
        · simp only [if_pos hk, strKnow0_false a1 a2]
        · simp only [if_neg hk, ih k0 parent player G]
          cases parseKnowledgeF false a2 f k0 parent player G with
          | error e => rfl
          | ok r =>
            obtain ⟨pn, G1⟩ := r
            have hfold := exceptFoldl_congr _ _
              (childStep_congr (fun st pr p Gb => parseKnowledgeF false a1 f st pr p Gb)
                (fun st pr p Gb => parseKnowledgeF false a2 f st pr p Gb)
                (fun st pr p Gb => ih st pr p Gb) pn player) (k0 :: rest) G1
            simp only [hfold]

theorem checkNodes_ok_true (G : EGraph) (root : String) (fuel : Nat) :
    ∀ l : List String, checkNodes G root fuel l = .ok true ↔
      ∀ n ∈ l, hasRecursiveAncestor G root fuel n = .ok true := by
  intro l
  induction l with
  | nil => simp [checkNodes]
  | cons n rest ih =>
    simp only [checkNodes, List.forall_mem_cons]
    cases h : hasRecursiveAncestor G root fuel n with
    | error e => simp [h]
    | ok b =>
      cases b with
      | false => simp [h]
      | true => simp [h, ih]

theorem treeCheck_ok_true (G : EGraph) (fuel d : Nat) :
    treeCheck G fuel d = .ok true ↔
      ∃ root, firstEdgeSource G = some root ∧
        ∀ n ∈ nodesAtDepth G root d,
          hasRecursiveAncestor G root fuel n = .ok true := by
  simp only [treeCheck]
  cases h : firstEdgeSource G with
  | none => simp [h]
  | some root => simp [h, checkNodes_ok_true]

theorem hRA_ok_true (G : EGraph) (root : String) (fuel : Nat) (n : String) :
    hasRecursiveAncestor G root fuel n = .ok true ↔
      ∃ nd, getDepthAux G root n fuel 0 = some nd ∧
        ∃ dl < nd, ∃ m ∈ nodesAtDepth G root dl,
          subtreeEquals G fuel n m = true := by
  simp only [hasRecursiveAncestor]
  cases h : getDepthAux G root n fuel 0 with
  | none => simp [h]
  | some nd => simp [h, List.any_eq_true, List.mem_range]

theorem playersCheck_ok_true (fuel : Nat) (s : State) (d : Nat) :
    ∀ l : List Nat, playersCheck fuel s d l = .ok true ↔
      ∀ p ∈ l, ∃ rG : String × EGraph,
        parse_knowledge fuel s none p emptyGraph = .ok rG ∧
        treeCheck rG.2 fuel d = .ok true := by
  intro l
  induction l with
  | nil => simp [playersCheck]
  | cons p ps ih =>
    simp only [playersCheck, List.forall_mem_cons]
    cases hp : parse_knowledge fuel s none p emptyGraph with
    | error e => simp [hp]
    | ok rG =>
      cases ht : treeCheck rG.2 fuel d with
      | error e => simp [hp, ht]
      | ok b =>
        cases b with
        | false => simp [hp, ht]
        | true => simp [hp, ht, ih]

/-- Claim C3 (amended): `epistemic_trees_recursive_at_depth(d)` returns
`True` iff, for every player, the tree build and root lookup succeed and
every node at depth `d` has a computed depth and passes the code's ancestor
check — some node at a strictly shallower depth accepted by the BFS
label/player comparison `_epistemic_subtree_equals`, a truncating comparison
that also succeeds as soon as either compared node has no successors, which
is weaker than structural subtree identity. -/
theorem mkbsc_c3_amended (fuel : Nat) (s : State) (d : Nat) :
    epistemic_trees_recursive_at_depth fuel s d = .ok true ↔
      ∀ p ∈ List.range (numKnowledges s), ∃ rG : String × EGraph,
        parse_knowledge fuel s none p emptyGraph = .ok rG ∧
        ∃ root, firstEdgeSource rG.2 = some root ∧
          ∀ n ∈ nodesAtDepth rG.2 root d,
            ∃ nd, getDepthAux rG.2 root n fuel 0 = some nd ∧
              ∃ dl < nd, ∃ m ∈ nodesAtDepth rG.2 root dl,
                subtreeEquals rG.2 fuel n m = true := by
  rw [epistemic_trees_recursive_at_depth, playersCheck_ok_true]
  simp only [treeCheck_ok_true, hRA_ok_true]

/-- Claim C3 (counterexample): on the four-level knowledge state `c3cex`,
whose player trees are the chain `{a}(p0) → {a}(p1) → {a}(p2=0)`, the code
reports the trees recursive at depth 2 — the leaf matches the root's label
and player and the BFS comparison returns `True` immediately because the leaf
has no successors — yet no node strictly shallower than depth 2 roots a
structurally identical subtree (the claim's notion), so the claimed
equivalence fails. -/
theorem mkbsc_c3_counterexample :
    epistemic_trees_recursive_at_depth 30 c3cex 2 = .ok true ∧
    firstEdgeSource c3graph = some "\x7ba\x7d0" ∧
    claimRecursiveAtDepth c3graph "\x7ba\x7d0" 30 2 = false := by
  refine ⟨by decide, by decide, by decide⟩

mutual
theorem epistemicNice_pure :
    ∀ (c1 c2 : Bool) (a1 a2 : State → Nat) (s : State) (lvl : Nat),
      noSingletonSet s = true →
      epistemicNice c1 a1 s lvl = epistemicNice c2 a2 s lvl
  | _, _, _, _, .base _, _, _ => by simp [epistemicNice]
  | _, _, _, _, .fset _, _, h => by simp [noSingletonSet] at h
  | _, _, _, _, .nested [_], _, h => by simp [noSingletonSet, noSingletonSet.nssLL] at h
  | c1, c2, a1, a2, .nested [], 0, _ => by simp [epistemicNice, outerBlocks]
  | c1, c2, a1, a2, .nested [], _ + 1, _ => by simp [epistemicNice, innerBlocks]
  | c1, c2, a1, a2, .nested (k1 :: k2 :: kr), 0, h => by
    have h' : noSingletonSet.nssLL (k1 :: k2 :: kr) = true := by
      simp only [noSingletonSet, Bool.and_eq_true] at h
      exact h.2
    simp only [epistemicNice]
    rw [outerBlocks_pure c1 c2 a1 a2 (k1 :: k2 :: kr) h']
  | c1, c2, a1, a2, .nested (k1 :: k2 :: kr), lvl + 1, h => by
    have h' : noSingletonSet.nssLL (k1 :: k2 :: kr) = true := by
      simp only [noSingletonSet, Bool.and_eq_true] at h
      exact h.2
    simp only [epistemicNice]
    rw [innerBlocks_pure c1 c2 a1 a2 (k1 :: k2 :: kr) (lvl + 1) h']

theorem niceList_pure :
    ∀ (c1 c2 : Bool) (a1 a2 : State → Nat) (l : List State) (lvl : Nat),
      noSingletonSet.nssL l = true →
      niceList c1 a1 l lvl = niceList c2 a2 l lvl
  | _, _, _, _, [], _, _ => by simp [niceList]
  | c1, c2, a1, a2, s :: r, lvl, h => by
    have h' := h
    simp only [noSingletonSet.nssL, Bool.and_eq_true] at h'
    simp only [niceList]
    rw [epistemicNice_pure c1 c2 a1 a2 s lvl h'.1,
      niceList_pure c1 c2 a1 a2 r lvl h'.2]

theorem outerBlocks_pure :
    ∀ (c1 c2 : Bool) (a1 a2 : State → Nat) (kss : List (List State)),
      noSingletonSet.nssLL kss = true →
      outerBlocks c1 a1 kss = outerBlocks c2 a2 kss
  | _, _, _, _, [], _ => by simp [outerBlocks]
  | c1, c2, a1, a2, k :: r, h => by
    have h' := h
    simp only [noSingletonSet.nssLL, Bool.and_eq_true] at h'
    simp only [outerBlocks]
    rw [niceList_pure c1 c2 a1 a2 k 1 h'.1, outerBlocks_pure c1 c2 a1 a2 r h'.2]

theorem innerBlocks_pure :
    ∀ (c1 c2 : Bool) (a1 a2 : State → Nat) (kss : List (List State)) (lvl : Nat),
      noSingletonSet.nssLL kss = true →
      innerBlocks c1 a1 kss lvl = innerBlocks c2 a2 kss lvl
  | _, _, _, _, [], _, _ => by simp [innerBlocks]
  | c1, c2, a1, a2, k :: r, lvl, h => by
    have h' := h
    simp only [noSingletonSet.nssLL, Bool.and_eq_true] at h'
    simp only [innerBlocks]
    rw [wrapList_pure c1 c2 a1 a2 k lvl h'.1,
      innerBlocks_pure c1 c2 a1 a2 r lvl h'.2]

theorem wrapList_pure :
    ∀ (c1 c2 : Bool) (a1 a2 : State → Nat) (l : List State) (lvl : Nat),
      noSingletonSet.nssL l = true →
      wrapList c1 a1 l lvl = wrapList c2 a2 l lvl
  | _, _, _, _, [], _, _ => by simp [wrapList]
  | c1, c2, a1, a2, s :: r, lvl, h => by
    have h' := h
    simp only [noSingletonSet.nssL, Bool.and_eq_true] at h'
    simp only [wrapList]
    rw [wrapS_pure c1 c2 a1 a2 s lvl h'.1, wrapList_pure c1 c2 a1 a2 r lvl h'.2]

theorem wrapS_pure :
    ∀ (c1 c2 : Bool) (a1 a2 : State → Nat) (s : State) (lvl : Nat),
      noSingletonSet s = true →
      wrapS c1 a1 s lvl = wrapS c2 a2 s lvl
  | c1, c2, a1, a2, s, lvl, h => by
    by_cases h1 : 1 < numKnowledges s
    · simp only [wrapS, if_pos h1]
      rw [epistemicNice_pure c1 c2 a1 a2 s (lvl + 1) h]
    · simp only [wrapS, if_neg h1]
      match s, h, h1 with
      | .base _, _, _ => rfl
      | .fset _, h, _ => simp [noSingletonSet] at h
      | .nested [], _, _ => rfl
      | .nested [_], h, _ => simp [noSingletonSet, noSingletonSet.nssLL] at h
      | .nested (k1 :: k2 :: kr), _, h1 => simp [numKnowledges] at h1
end

/-- Claim C8 (counterexample): with the process-wide flag
`State.compact_representation` set, `__repr__` returns the memory address
string: two structurally equal states at different addresses render
differently, and the same state renders differently under the two flag
settings — the rendering is influenced by the implicit flag and is not a
pure function of the value. -/
theorem mkbsc_c8_counterexample :
    pyRepr true (fun _ => 7) (State.base "x") ≠ pyRepr true (fun _ => 8) (State.base "x") ∧
    pyRepr true (fun _ => 7) (State.base "x") ≠ pyRepr false (fun _ => 7) (State.base "x") := by
  refine ⟨by decide, by decide⟩

/-- Claim C8 (amended): `epistemic_nice` is a pure function of the knowledge
value on the documented data-model shapes (no singleton-frozenset
sub-states): independent of the compact flag and of every address.
`__repr__` is a pure function of the value only while the class-level flag is
`False`; the flag is read implicitly inside `__repr__`, and with the flag set
the rendering is the decimal address of the object. -/
theorem mkbsc_c8_amended :
    (∀ (c1 c2 : Bool) (a1 a2 : State → Nat) (s : State) (lvl : Nat),
       noSingletonSet s = true →
       epistemicNice c1 a1 s lvl = epistemicNice c2 a2 s lvl) ∧
    (∀ (a1 a2 : State → Nat) (s : State), pyRepr false a1 s = pyRepr false a2 s) ∧
    (∀ (a : State → Nat) (s : State), pyRepr true a s = Nat.repr (a s)) := by
  refine ⟨epistemicNice_pure, fun a1 a2 s => rfl, fun a s => rfl⟩

/-- Claim C8 (witness for the amended theorem's hypothesis). -/
theorem mkbsc_c8_amended_witness :
    epistemicNice true (fun _ => 3) (State.nested [[State.base "a"], [State.base "b"]]) 0 =
    epistemicNice false (fun _ => 9) (State.nested [[State.base "a"], [State.base "b"]]) 0 :=
  mkbsc_c8_amended.1 true false (fun _ => 3) (fun _ => 9)
    (State.nested [[State.base "a"], [State.base "b"]]) 0 (by decide)

/-- Claim C9 (counterexample): the tie-break comparison reads only the
objects' memory addresses, so two runs that assign different addresses to the
same structurally equal pair order them differently. -/
theorem mkbsc_c9_counterexample :
    (PyStateObj.mk 1 (State.base "x")).val = (PyStateObj.mk 2 (State.base "x")).val ∧
    pyGt true ⟨2, State.base "x"⟩ ⟨1, State.base "x"⟩ = .ok true ∧
    pyGt true ⟨1, State.base "x"⟩ ⟨2, State.base "x"⟩ = .ok false := by
  exact ⟨rfl, rfl, rfl⟩

/-- Claim C9 (amended): `__gt__`/`__lt__` compare `id(self)` with
`id(other)` only — the result is independent of the knowledge values, hence
deterministic for fixed objects within one run, but it is a function of the
incidental addresses, not of the structural input, so it is not reproducible
across runs. -/
theorem mkbsc_c9_amended :
    ∀ (orderable : Bool) (a b : Nat) (v w v' w' : State),
      pyGt orderable ⟨a, v⟩ ⟨b, w⟩ = pyGt orderable ⟨a, v'⟩ ⟨b, w'⟩ ∧
      pyLt orderable ⟨a, v⟩ ⟨b, w⟩ = pyLt orderable ⟨a, v'⟩ ⟨b, w'⟩ := by
  intro orderable a b v w v' w'
  exact ⟨rfl, rfl⟩

/-- Claim C10: with the class flag `State.orderable` at its default `False`,
both `<` and `>` raise `AssertionError`; with the flag `True` both succeed
and return a boolean. -/
theorem mkbsc_c10 :
    orderableDefault = false ∧
    (∀ a b : PyStateObj,
      pyLt false a b = .error .assertionError ∧
      pyGt false a b = .error .assertionError) ∧
    (∀ a b : PyStateObj,
      (∃ r, pyLt true a b = .ok r) ∧ (∃ r, pyGt true a b = .ok r)) := by
  exact ⟨rfl, fun a b => ⟨rfl, rfl⟩, fun a b => ⟨⟨_, rfl⟩, ⟨_, rfl⟩⟩⟩

end Mkbsc
